import Mathlib

/-!
Shallow embedding of the kawa streaming core: the scheduler of src/radio.rs
and the queue/transcode driver of src/queue.rs.  External effects (the
filesystem, the codec library, the HTTP random-track oracle) are modelled by
environment records of response functions; the control flow of each source
function is translated line by line.  Bounded source loops whose counter is
tested against a constant are written with a structurally decreasing budget
equal to (bound - counter), so that every definition reduces by kernel
evaluation.
-/

namespace Kawa

/-- A queue entry, `QueueEntry { id, path }` of both source files. -/
structure QueueEntry where
  id : Int
  path : String
deriving DecidableEq

/-- A ring buffer is modelled by its queued byte contents (FIFO, head is the
oldest byte), matching `RingBuffer<u8>`; `len()` is the list length. -/
abbrev Ring := List Nat

/-- RingBuffer try_read: return up to n bytes without blocking, together with
the remaining buffer contents. -/
def tryRead (r : Ring) (n : Nat) : List Nat × Ring := (r.take n, r.drop n)

/-- Character-level split, the semantics of Rust str split(char): splitting
the empty string yields one empty piece, a separator at the end yields a
trailing empty piece.  The accumulator holds the current piece reversed. -/
def splitCharAux (c : Char) : List Char → List Char → List (List Char)
  | [], acc => [acc.reverse]
  | x :: xs, acc =>
    if x == c then acc.reverse :: splitCharAux c xs []
    else splitCharAux c xs (x :: acc)

/-- Rust str split(c) collected into a list of strings. -/
def splitChar (c : Char) (s : String) : List String :=
  (splitCharAux c s.toList []).map fun l => String.mk l

namespace Radio

/-- shout ShoutFormat; the source matches Ogg and MP3 and rejects the rest,
modelled by a third constructor. -/
inductive ShoutFormat
  | Ogg
  | MP3
  | WebM
deriving DecidableEq

/-- config StreamConfig as used by radio.rs: mount, container, bitrate
(the codec field is irrelevant to control flow and folded into tcOk). -/
structure StreamConfig where
  mount : String
  container : ShoutFormat
  bitrate : Nat
deriving DecidableEq

/-- radio.rs PreBuffer: the output ring buffer and the atomic cancel token. -/
structure PreBuffer where
  buffer : Ring
  token : Bool
deriving DecidableEq

/-- The drain loop of PreBuffer cancel: while len() > 0, try_read(4096) and
discard.  Each pass with a non-empty buffer removes at least one byte, so a
fuel of the initial length always suffices to reach the empty buffer. -/
def drainRead : Nat → Ring → Ring
  | 0, r => r
  | fuel + 1, r => if r.length > 0 then drainRead fuel (tryRead r 4096).2 else r

/-- PreBuffer cancel (radio.rs lines 54-63): store true into the token, then
drain the ring until it is empty. -/
def PreBuffer.cancel (pb : PreBuffer) : PreBuffer :=
  { token := true, buffer := drainRead pb.buffer.length pb.buffer }

/-- Outcome of one HTTP fetch of the random-track oracle. -/
inductive FetchResult
  | ok (qe : QueueEntry)
  | netErr
  | badBody
deriving DecidableEq

/-- Environment of external effects for radio.rs: per-path file readability,
per (input path, extension, stream) transcoder-creation success, and the
oracle response of the k-th random fetch. -/
structure Env where
  streams : List StreamConfig
  fileOk : String → Bool
  tcOk : String → String → StreamConfig → Bool
  oracle : Nat → FetchResult

/-- The file-name component of a path (after the last separator). -/
def fileName (path : String) : String := (splitChar '/' path).getLastD ""

/-- Rust Path extension(): the part of the file name after the last dot;
none when the file name has no dot, or its only dot is leading. -/
def pathExtension (path : String) : Option String :=
  let parts := splitChar '.' (fileName path)
  if parts.length ≤ 1 then none
  else if parts.length == 2 && parts.headD "" == "" then none
  else parts.getLast?

/-- PreBuffer from_transcode (radio.rs lines 26-52): reject containers other
than Ogg and MP3; on transcoder-creation failure warn and return none; on
success a fresh prebuffer with an empty 500 KB ring and a clear token. -/
def PreBuffer.from_transcode (env : Env) (inputPath ext : String)
    (cfg : StreamConfig) : Option PreBuffer :=
  let res_ext : Option String :=
    match cfg.container with
    | .Ogg => some "ogg"
    | .MP3 => some "mp3"
    | _ => none
  match res_ext with
  | none => none
  | some _ =>
    if env.tcOk inputPath ext cfg then some { buffer := [], token := false }
    else none

/-- radio.rs initiate_transcode (lines 133-155): take the path extension
(return none when absent), read the file (return none on failure), then for
each configured stream push the prebuffer when from_transcode succeeds —
a failing stream is skipped, not an error. -/
def initiate_transcode (env : Env) (path : String)
    (streams : List StreamConfig) : Option (List PreBuffer) :=
  match pathExtension path with
  | none => none
  | some ext =>
    if env.fileOk path then
      some (streams.filterMap fun s => PreBuffer.from_transcode env path ext s)
    else none

/-- Loop body of get_queue_prebuf: while the entry list is non-empty, attempt
the head entry; on failure pop the LAST entry (the source calls Vec pop) and
retry.  Fuel equal to the list length makes the recursion structural; the
fuel-exhausted case is unreachable when fuel = entries.length. -/
def get_queue_prebuf_loop (env : Env) (streams : List StreamConfig) :
    Nat → List QueueEntry → List QueueEntry × Option (List PreBuffer)
  | _, [] => ([], none)
  | 0, es => (es, none)
  | fuel + 1, e :: rest =>
    match initiate_transcode env e.path streams with
    | some r => (e :: rest, some r)
    | none => get_queue_prebuf_loop env streams fuel ((e :: rest).dropLast)

/-- radio.rs get_queue_prebuf (lines 157-169), returning the entry list as it
stands after the loop together with the built prebuffer set, if any. -/
def get_queue_prebuf (env : Env) (entries : List QueueEntry)
    (streams : List StreamConfig) : List QueueEntry × Option (List PreBuffer) :=
  get_queue_prebuf_loop env streams entries.length entries

/-- The panics radio.rs can raise: the unwrap calls in get_random_song, the
explicit 100-failure panic of get_random_prebuf, the unwrap of a missing
queue prebuffer set, and Vec remove(0) on an empty vector. -/
inductive PanicKind
  | oracleUnwrap
  | randomBroken
  | unwrapNone
  | removeEmpty
deriving DecidableEq

/-- radio.rs get_random_song (lines 104-112): the HTTP send, body read and
JSON decode are each followed by unwrap, so a network error or an unparsable
body panics instead of being reported. -/
def get_random_song : FetchResult → Except PanicKind QueueEntry
  | .ok qe => .ok qe
  | .netErr => .error .oracleUnwrap
  | .badBody => .error .oracleUnwrap

/-- Loop of get_random_prebuf: panic once the failure counter reaches 100,
otherwise fetch a random song (itself able to panic) and attempt a
transcode; a failed attempt increments the counter.  The budget argument is
100 - counter, so the counter = 100 test is the budget = 0 case. -/
def get_random_prebuf_loop (env : Env) :
    Nat → Nat → Except PanicKind (List PreBuffer)
  | _, 0 => .error .randomBroken
  | counter, budget + 1 =>
    match get_random_song (env.oracle counter) with
    | .error p => .error p
    | .ok random =>
      match initiate_transcode env random.path env.streams with
      | some p => .ok p
      | none => get_random_prebuf_loop env (counter + 1) budget

/-- radio.rs get_random_prebuf (lines 171-183). -/
def get_random_prebuf (env : Env) : Except PanicKind (List PreBuffer) :=
  get_random_prebuf_loop env 0 100

/-- api QueuePos. -/
inductive QueuePos
  | Head
  | Tail
deriving DecidableEq

/-- api ApiMessage. -/
inductive ApiMessage
  | Skip
  | Clear
  | Insert (pos : QueuePos) (qe : QueueEntry)
  | Remove (pos : QueuePos)
deriving DecidableEq

/-- The scheduler state inside start_streams: the current prebuffer set, the
operator queue entries, and the queue-prepared slot. -/
structure SchedState where
  prebuffers : List PreBuffer
  entries : List QueueEntry
  queue_prebuf : Option (List PreBuffer)
deriving DecidableEq

/-- The done test of the song-activity loop: every current prebuffer has its
token set and an empty ring (radio.rs lines 219-222). -/
def allDone (pbs : List PreBuffer) : Bool :=
  pbs.all fun pb => pb.token && pb.buffer.length == 0

/-- Store true into every cancel token (the Skip handler). -/
def setTokens (pbs : List PreBuffer) : List PreBuffer :=
  pbs.map fun pb => { pb with token := true }

/-- Result of one iteration of the song-activity loop: exit the inner loop,
continue with the new state (carrying the prebuffers that were cancelled and
drained during the iteration), or panic. -/
inductive StepOut
  | exit (st : SchedState)
  | cont (st : SchedState) (cancelled : List PreBuffer)
  | panic (p : PanicKind)
deriving DecidableEq

/-- The message handlers of the song-activity loop (radio.rs lines 226-290),
translated case by case.  Insert Head and Remove Head replace the
queue-prepared slot and unwrap the OLD value, so both panic when no
queue-prepared set existed. -/
def handleMsg (env : Env) (st : SchedState) : ApiMessage → StepOut
  | .Skip => .exit { st with prebuffers := setTokens st.prebuffers }
  | .Clear =>
    match st.queue_prebuf with
    | some olds =>
      .cont { st with queue_prebuf := none, entries := [] }
        (olds.map PreBuffer.cancel)
    | none => .cont { st with entries := [] } []
  | .Insert .Head qe =>
    let rebuilt := get_queue_prebuf env (qe :: st.entries) env.streams
    match st.queue_prebuf with
    | none => .panic .unwrapNone
    | some olds =>
      .cont { st with entries := rebuilt.1, queue_prebuf := rebuilt.2 }
        (olds.map PreBuffer.cancel)
  | .Insert .Tail qe =>
    let entries1 := st.entries ++ [qe]
    if entries1.length == 1 then
      let rebuilt := get_queue_prebuf env entries1 env.streams
      .cont { st with entries := rebuilt.1, queue_prebuf := rebuilt.2 } []
    else .cont { st with entries := entries1 } []
  | .Remove .Head =>
    if st.entries.length > 0 then
      let rebuilt := get_queue_prebuf env (st.entries.drop 1) env.streams
      match st.queue_prebuf with
      | none => .panic .unwrapNone
      | some olds =>
        .cont { st with entries := rebuilt.1, queue_prebuf := rebuilt.2 }
          (olds.map PreBuffer.cancel)
    else .cont st []
  | .Remove .Tail =>
    let entries1 := if st.entries.length > 0 then st.entries.dropLast
                    else st.entries
    if entries1.length == 0 then
      match st.queue_prebuf with
      | some olds =>
        .cont { st with entries := entries1, queue_prebuf := none }
          (olds.map PreBuffer.cancel)
      | none => .cont { st with entries := entries1 } []
    else .cont { st with entries := entries1 } []

/-- One iteration of the song-activity loop (radio.rs lines 217-295): when
every current prebuffer is done, break; otherwise handle one operator
message when available, else sleep and continue. -/
def songStep (env : Env) (st : SchedState) (msg : Option ApiMessage) : StepOut :=
  if allDone st.prebuffers then .exit st
  else
    match msg with
    | some m => handleMsg env st m
    | none => .cont st []

/-- The promotion step at the top of the outer loop (radio.rs lines 200-209):
when a queue-prepared set exists, remove the queue head (Vec remove(0),
which panics on an empty vector) and take the set, rebuilding the slot for
the new head; otherwise take the random set and rebuild it.  Returns the new
state, the chosen current set, and the new random-prepared set. -/
def promote (env : Env) (st : SchedState) (rnd : List PreBuffer) :
    Except PanicKind (SchedState × List PreBuffer × List PreBuffer) :=
  match st.queue_prebuf with
  | some qp =>
    match st.entries with
    | [] => .error .removeEmpty
    | _ :: rest =>
      let rebuilt := get_queue_prebuf env rest env.streams
      .ok ({ prebuffers := qp, entries := rebuilt.1, queue_prebuf := rebuilt.2 },
           qp, rnd)
  | none =>
    match get_random_prebuf env with
    | .ok newr => .ok ({ st with prebuffers := rnd }, rnd, newr)
    | .error p => .error p

/-- The scheduler invariant: a queue-prepared set is present only when the
entry list is non-empty. -/
def Inv (st : SchedState) : Prop :=
  st.queue_prebuf.isSome = true → st.entries ≠ []

end Radio

namespace KQueue

/-- config Container of the queue.rs version: exactly Ogg and MP3. -/
inductive Container
  | Ogg
  | MP3
deriving DecidableEq

/-- config StreamConfig as used by queue.rs. -/
structure StreamConfig where
  mount : String
  container : Container
  codec : Nat
  bitrate : Nat
deriving DecidableEq

/-- The PreBuffer handed out by queue.rs, one per configured stream: its ring
contents, its cancel flag, and the mount it was created for (standing in for
the metadata and log tag of PreBuffer new). -/
structure PreBuffer where
  ring : Kawa.Ring
  cancelled : Bool
  mount : String
deriving DecidableEq

/-- Modelled from the spec: prebuffer.rs, the PreBuffer implementation that
queue.rs imports, is not among the given sources.  Per the spec,
"Cancellation always drains before dropping to avoid a wedged writer", so
dropping a replaced prepared set sets the cancel flag and drains the ring of
each of its PreBuffers; the drain loop is the one of radio.rs. -/
def PreBuffer.dropCancel (pb : PreBuffer) : PreBuffer :=
  { pb with cancelled := true, ring := Radio.drainRead pb.ring.length pb.ring }

/-- A transcode source of start_next_tc: a file opened at a path, or the
in-memory fallback payload of the configuration. -/
inductive Source
  | file (path : String)
  | fallback
deriving DecidableEq

/-- Environment of external effects for queue.rs: the queue entries, the
response of the k-th random fetch (the reqwest chain collapses every failure
into none), file-open success, and the success of each fallible step of
initiate_transcode. -/
structure Env where
  streams : List StreamConfig
  entries : List QueueEntry
  randomFetch : Nat → Option QueueEntry
  openOk : String → Bool
  inputOk : Source → String → Bool
  dur : Source → String → Nat
  gbOk : Source → Bool
  outputOk : StreamConfig → Bool
  addOutputOk : StreamConfig → Bool
  buildOk : Source → Bool
  fallbackContainer : String

/-- The error positions of kaeru in Queue initiate_transcode. -/
inductive KErr
  | input
  | gb
  | output
  | addOutput
  | build
deriving DecidableEq

/-- The one panic of start_next_tc: the unwrap of a failed fallback
transcode. -/
inductive KPanic
  | fallbackUnwrap
deriving DecidableEq

/-- The container string of a stream output (queue.rs lines 163-166). -/
def containerStr : Container → String
  | .Ogg => "ogg"
  | .MP3 => "mp3"

/-- The per-stream loop of Queue initiate_transcode (queue.rs lines 161-171):
for each stream build the output and add it to the graph, pushing one fresh
PreBuffer; any failure aborts the whole build with that error. -/
def buildOutputs (env : Env) (s : Source) :
    List StreamConfig → Except KErr (List PreBuffer)
  | [] => .ok []
  | cfg :: rest =>
    if env.outputOk cfg then
      if env.addOutputOk cfg then
        match buildOutputs env s rest with
        | .ok l => .ok ({ ring := [], cancelled := false, mount := cfg.mount } :: l)
        | .error e => .error e
      else .error .addOutput
    else .error .output

/-- Queue initiate_transcode (queue.rs lines 155-184): open the input (may
fail), read its duration, build the graph builder (may fail), add one output
per stream (any failure propagates), build and spawn the graph (may fail). -/
def initiate_transcode (env : Env) (s : Source) (container : String) :
    Except KErr (Nat × List PreBuffer) :=
  if env.inputOk s container then
    if env.gbOk s then
      match buildOutputs env s env.streams with
      | .ok prebufs =>
        if env.buildOk s then .ok (env.dur s container, prebufs)
        else .error .build
      | .error e => .error e
    else .error .gb
  else .error .input

/-- Queue next_queue_buffer (queue.rs lines 130-137): the head entry's path,
when the queue is non-empty; the entry is NOT removed. -/
def next_queue_buffer (env : Env) : Option String :=
  env.entries.head?.map QueueEntry.path

/-- Queue next_buffer (queue.rs line 127): the queue head, else the k-th
random fetch. -/
def next_buffer (env : Env) (k : Nat) : Option String :=
  match next_queue_buffer env with
  | some p => some p
  | none => (env.randomFetch k).map QueueEntry.path

/-- The extension computation of start_next_tc (queue.rs line 108): the last
piece of the path split at every dot.  Splitting always yields at least one
piece, so this never returns none. -/
def splitLastDot (p : String) : Option String := (splitChar '.' p).getLast?

/-- What start_next_tc stored into the next slot: a real source with its path,
or the fallback payload; each with the duration and prebuffer set. -/
inductive TcResult
  | real (path : String) (dur : Nat) (set : List PreBuffer)
  | fallbackUsed (dur : Nat) (set : List PreBuffer)
deriving DecidableEq

/-- The tries = 5 branch of start_next_tc (queue.rs lines 92-103): transcode
the configured fallback payload and unwrap, so a failure is a panic, never a
retry. -/
def fallbackResult (env : Env) : Except KPanic TcResult :=
  match initiate_transcode env .fallback env.fallbackContainer with
  | .ok (d, set) => .ok (.fallbackUsed d set)
  | .error _ => .error .fallbackUnwrap

/-- The retry loop of Queue start_next_tc (queue.rs lines 88-124).  The budget
argument is 5 - tries, so the tries = 5 test is the budget = 0 case; tries
indexes the random fetch of the attempt.  A missing buffer, a failed open, a
missing extension and a failed transcode each fall through to the next
iteration. -/
def start_next_tc_loop (env : Env) : Nat → Nat → Except KPanic TcResult
  | _, 0 => fallbackResult env
  | tries, budget + 1 =>
    match next_buffer env tries with
    | some path =>
      if env.openOk path then
        match splitLastDot path with
        | some ext =>
          match initiate_transcode env (.file path) ext with
          | .ok (d, set) => .ok (.real path d set)
          | .error _ => start_next_tc_loop env (tries + 1) budget
        | none => start_next_tc_loop env (tries + 1) budget
      else start_next_tc_loop env (tries + 1) budget
    | none => start_next_tc_loop env (tries + 1) budget

/-- Queue start_next_tc, entered with tries = 0. -/
def start_next_tc (env : Env) : Except KPanic TcResult :=
  start_next_tc_loop env 0 5

/-- Success test on an Except value. -/
def isOkE {α β : Type} : Except α β → Bool
  | .ok _ => true
  | .error _ => false

/-- One attempt of start_next_tc fails: no buffer was produced, or the open
failed, or the extension was missing, or the transcode failed. -/
def attemptFails (env : Env) (k : Nat) : Bool :=
  match next_buffer env k with
  | none => true
  | some path =>
    if env.openOk path then
      match splitLastDot path with
      | some ext => !(isOkE (initiate_transcode env (.file path) ext))
      | none => true
    else true

end KQueue

namespace Radio

/-- A one-stream Ogg configuration used by concrete instances. -/
def sOgg : StreamConfig := { mount := "a", container := .Ogg, bitrate := 128 }

/-- A one-stream MP3 configuration used by concrete instances. -/
def sMp3 : StreamConfig := { mount := "b", container := .MP3, bitrate := 192 }

/-- Environment of claim C1's witness: one stream, everything succeeds. -/
def envC1 : Env :=
  { streams := [sOgg]
    fileOk := fun _ => true
    tcOk := fun _ _ _ => true
    oracle := fun _ => .ok { id := 1, path := "/r.ogg" } }

/-- State of claim C1's witness: one undrained current prebuffer, two queue
entries, a queue-prepared set. -/
def stC1 : SchedState :=
  { prebuffers := [{ buffer := [7, 7], token := false }]
    entries := [{ id := 1, path := "/q1.ogg" }, { id := 2, path := "/q2.ogg" }]
    queue_prebuf := some [{ buffer := [], token := false }] }

/-- Environment of claim C2's failing input. -/
def envC2 : Env :=
  { streams := [sOgg]
    fileOk := fun _ => true
    tcOk := fun _ _ _ => true
    oracle := fun _ => .ok { id := 1, path := "/r.ogg" } }

/-- State of claim C2's failing input: a random track is playing, the queue
is empty and no queue-prepared set exists. -/
def stC2 : SchedState :=
  { prebuffers := [{ buffer := [3], token := false }]
    entries := []
    queue_prebuf := none }

/-- Environment of claim C3's failing input: only /good.ogg can be opened;
transcoding an opened file always succeeds. -/
def envC3 : Env :=
  { streams := [sOgg]
    fileOk := fun p => p == "/good.ogg"
    tcOk := fun _ _ _ => true
    oracle := fun _ => .netErr }

/-- Environment of claim C5's counterexample: two streams, but the
transcoder can only be created for the MP3 one. -/
def envC5 : Env :=
  { streams := [sOgg, sMp3]
    fileOk := fun _ => true
    tcOk := fun _ _ cfg => cfg.mount == "b"
    oracle := fun _ => .netErr }

/-- Environment of claim C6's witness. -/
def envC6 : Env :=
  { streams := [sOgg]
    fileOk := fun _ => true
    tcOk := fun _ _ _ => true
    oracle := fun _ => .ok { id := 1, path := "/r.ogg" } }

/-- State of claim C6's witness: a queue-prepared set with undrained bytes. -/
def stC6 : SchedState :=
  { prebuffers := [{ buffer := [1], token := false }]
    entries := [{ id := 9, path := "/q.ogg" }]
    queue_prebuf := some [{ buffer := [5, 6, 7], token := false }] }

/-- Environment of claim C8's failing input: the first oracle fetch hits a
network error. -/
def envC8net : Env :=
  { streams := [sOgg]
    fileOk := fun _ => true
    tcOk := fun _ _ _ => true
    oracle := fun _ => .netErr }

/-- Environment of claim C8's 100-failure run: every fetch succeeds but no
fetched path can be opened. -/
def envC8tc : Env :=
  { streams := [sOgg]
    fileOk := fun _ => false
    tcOk := fun _ _ _ => true
    oracle := fun k => .ok { id := Int.ofNat k, path := "/r.ogg" } }

/-- Environment of claim C9's witness. -/
def envC9 : Env :=
  { streams := [sOgg]
    fileOk := fun _ => true
    tcOk := fun _ _ _ => true
    oracle := fun _ => .ok { id := 1, path := "/r.ogg" } }

/-- State of claim C9's witness: three queued entries and a prepared set. -/
def stC9 : SchedState :=
  { prebuffers := [{ buffer := [2], token := false }]
    entries := [{ id := 1, path := "/q1.ogg" }, { id := 2, path := "/q2.ogg" },
                { id := 3, path := "/q3.ogg" }]
    queue_prebuf := some [{ buffer := [], token := false }] }

/-- Environment of claim C10's witness. -/
def envC10 : Env :=
  { streams := [sOgg]
    fileOk := fun _ => true
    tcOk := fun _ _ _ => true
    oracle := fun _ => .ok { id := 1, path := "/r.ogg" } }

/-- State of claim C10's witness. -/
def stC10 : SchedState :=
  { prebuffers := [{ buffer := [], token := true }]
    entries := [{ id := 4, path := "/q.ogg" }]
    queue_prebuf := some [{ buffer := [], token := false }] }

end Radio

namespace KQueue

/-- A one-stream configuration of the queue.rs version. -/
def kOgg : StreamConfig := { mount := "m", container := .Ogg, codec := 0, bitrate := 128 }

/-- Environment of claim C4's witness: the queue is empty and every random
fetch fails, so all five real attempts fail; the fallback transcodes. -/
def envC4 : Env :=
  { streams := [kOgg]
    entries := []
    randomFetch := fun _ => none
    openOk := fun _ => true
    inputOk := fun _ _ => true
    dur := fun _ _ => 0
    gbOk := fun _ => true
    outputOk := fun _ => true
    addOutputOk := fun _ => true
    buildOk := fun _ => true
    fallbackContainer := "ogg" }

/-- Environment of claim C5's witness: one stream, a successful build. -/
def envC5k : Env :=
  { streams := [kOgg]
    entries := []
    randomFetch := fun _ => none
    openOk := fun _ => true
    inputOk := fun _ _ => true
    dur := fun _ _ => 0
    gbOk := fun _ => true
    outputOk := fun _ => true
    addOutputOk := fun _ => true
    buildOk := fun _ => true
    fallbackContainer := "ogg" }

/-- Environment of claim C7's failing input: the queue head has the
extensionless path "noext" and every step succeeds. -/
def envC7 : Env :=
  { streams := [kOgg]
    entries := [{ id := 1, path := "noext" }]
    randomFetch := fun _ => none
    openOk := fun _ => true
    inputOk := fun _ _ => true
    dur := fun _ _ => 0
    gbOk := fun _ => true
    outputOk := fun _ => true
    addOutputOk := fun _ => true
    buildOk := fun _ => true
    fallbackContainer := "ogg" }

end KQueue

/-! Helper lemmas. -/

/-- With fuel at least the buffer length, the drain loop reaches the empty
buffer: each pass on a non-empty buffer drops at least one byte. -/
theorem drainRead_nil : ∀ (fuel : Nat) (r : Ring), r.length ≤ fuel →
    Radio.drainRead fuel r = []
  | 0, r, h => by
    have hr : r = [] := List.length_eq_zero.mp (Nat.le_zero.mp h)
    simp [Radio.drainRead, hr]
  | fuel + 1, r, h => by
    by_cases hr : r.length > 0
    · have hlen : ((tryRead r 4096).2).length ≤ fuel := by
        simp only [tryRead, List.length_drop]
        omega
      simp only [Radio.drainRead, hr, if_pos]
      exact drainRead_nil fuel _ hlen
    · have hr0 : r = [] := List.length_eq_zero.mp (by omega)
      simp [Radio.drainRead, hr0]

/-- PreBuffer cancel sets the token and leaves an empty ring. -/
theorem cancel_spec (pb : Radio.PreBuffer) :
    (pb.cancel).token = true ∧ (pb.cancel).buffer = [] :=
  ⟨rfl, drainRead_nil pb.buffer.length pb.buffer le_rfl⟩

/-- When the get_queue_prebuf loop returns a prebuffer set, the entry list it
returns is non-empty (the set was built from its head entry). -/
theorem gqp_loop_some_ne_nil (env : Radio.Env) (streams : List Radio.StreamConfig) :
    ∀ (fuel : Nat) (es es' : List QueueEntry) (r : List Radio.PreBuffer),
      Radio.get_queue_prebuf_loop env streams fuel es = (es', some r) → es' ≠ []
  | fuel, [], es', r, h => by
    cases fuel <;> simp [Radio.get_queue_prebuf_loop] at h
  | 0, e :: rest, es', r, h => by
    simp [Radio.get_queue_prebuf_loop] at h
  | fuel + 1, e :: rest, es', r, h => by
    simp only [Radio.get_queue_prebuf_loop] at h
    cases hit : Radio.initiate_transcode env e.path streams with
    | some p =>
      rw [hit] at h
      simp only [Prod.mk.injEq] at h
      intro hc
      rw [hc] at h
      exact (List.cons_ne_nil e rest) h.1
    | none =>
      rw [hit] at h
      exact gqp_loop_some_ne_nil env streams fuel _ es' r h

/-- radio.rs get_queue_prebuf: a returned set comes with a non-empty queue. -/
theorem gqp_some_ne_nil (env : Radio.Env) (streams : List Radio.StreamConfig)
    (es es' : List QueueEntry) (r : List Radio.PreBuffer)
    (h : Radio.get_queue_prebuf env es streams = (es', some r)) : es' ≠ [] :=
  gqp_loop_some_ne_nil env streams es.length es es' r h

/-- The per-stream output loop of queue.rs either fails or yields exactly one
fresh PreBuffer per stream, in stream order. -/
theorem buildOutputs_ok (env : KQueue.Env) (s : KQueue.Source) :
    ∀ (cfgs : List KQueue.StreamConfig) (l : List KQueue.PreBuffer),
      KQueue.buildOutputs env s cfgs = .ok l →
      l = cfgs.map fun cfg => { ring := [], cancelled := false, mount := cfg.mount }
  | [], l, h => by
    simp only [KQueue.buildOutputs, Except.ok.injEq] at h
    simp [← h]
  | cfg :: rest, l, h => by
    simp only [KQueue.buildOutputs] at h
    by_cases h1 : env.outputOk cfg
    · rw [if_pos h1] at h
      by_cases h2 : env.addOutputOk cfg
      · rw [if_pos h2] at h
        cases hrec : KQueue.buildOutputs env s rest with
        | ok l2 =>
          rw [hrec] at h
          simp only [Except.ok.injEq] at h
          have := buildOutputs_ok env s rest l2 hrec
          simp [← h, this]
        | error e =>
          rw [hrec] at h
          exact absurd h (by simp)
      · rw [if_neg h2] at h
        exact absurd h (by simp)
    · rw [if_neg h1] at h
      exact absurd h (by simp)

/-- Splitting a character list never yields the empty list of pieces. -/
theorem splitCharAux_ne_nil (c : Char) :
    ∀ (xs acc : List Char), splitCharAux c xs acc ≠ []
  | [], acc => by simp [splitCharAux]
  | x :: xs, acc => by
    simp only [splitCharAux]
    by_cases hx : x == c
    · simp [hx]
    · simp only [hx, if_neg]
      exact splitCharAux_ne_nil c xs (x :: acc)

/-- queue.rs line 108: split followed by last always yields a piece, so the
skip branch for a missing extension is unreachable. -/
theorem splitLastDot_isSome (p : String) :
    (KQueue.splitLastDot p).isSome = true := by
  unfold KQueue.splitLastDot splitChar
  rw [List.getLast?_isSome]
  simp only [ne_eq, List.map_eq_nil_iff]
  exact splitCharAux_ne_nil '.' p.toList []

/-- One failed attempt of start_next_tc moves the loop to the next iteration
with an incremented tries counter and one unit of budget spent. -/
theorem sntc_loop_step (env : KQueue.Env) (tries budget : Nat)
    (hf : KQueue.attemptFails env tries = true) :
    KQueue.start_next_tc_loop env tries (budget + 1) =
      KQueue.start_next_tc_loop env (tries + 1) budget := by
  simp only [KQueue.start_next_tc_loop]
  unfold KQueue.attemptFails at hf
  cases hnb : KQueue.next_buffer env tries with
  | none => rfl
  | some path =>
    rw [hnb] at hf
    dsimp only at hf ⊢
    by_cases ho : env.openOk path = true
    · rw [if_pos ho] at hf ⊢
      cases hs : KQueue.splitLastDot path with
      | some ext =>
        rw [hs] at hf
        dsimp only at hf ⊢
        cases hit : KQueue.initiate_transcode env (.file path) ext with
        | ok res =>
          rw [hit] at hf
          simp [KQueue.isOkE] at hf
        | error e => rfl
      | none => rfl
    · rw [if_neg ho]

/-- The random-prebuffer loop only fails with an oracle-unwrap panic or the
100-failure panic. -/
theorem grp_loop_error (env : Radio.Env) :
    ∀ (budget counter : Nat) (p : Radio.PanicKind),
      Radio.get_random_prebuf_loop env counter budget = .error p →
      p = .oracleUnwrap ∨ p = .randomBroken
  | 0, counter, p, h => by
    simp only [Radio.get_random_prebuf_loop, Except.error.injEq] at h
    right
    exact h.symm
  | budget + 1, counter, p, h => by
    simp only [Radio.get_random_prebuf_loop] at h
    cases ho : env.oracle counter with
    | ok qe =>
      rw [ho] at h
      simp only [Radio.get_random_song] at h
      cases hit : Radio.initiate_transcode env qe.path env.streams with
      | some pr => rw [hit] at h; exact absurd h (by simp)
      | none => rw [hit] at h; exact grp_loop_error env budget (counter + 1) p h
    | netErr =>
      rw [ho] at h
      simp only [Radio.get_random_song, Except.error.injEq] at h
      left
      exact h.symm
    | badBody =>
      rw [ho] at h
      simp only [Radio.get_random_song, Except.error.injEq] at h
      left
      exact h.symm

/-- A state whose queue and queue-prepared slot both come out of
get_queue_prebuf satisfies the scheduler invariant. -/
theorem Inv_of_gqp (env : Radio.Env) (pbs : List Radio.PreBuffer)
    (es : List QueueEntry) :
    Radio.Inv { prebuffers := pbs,
                entries := (Radio.get_queue_prebuf env es env.streams).1,
                queue_prebuf := (Radio.get_queue_prebuf env es env.streams).2 } := by
  intro hsome
  obtain ⟨r, hr⟩ := Option.isSome_iff_exists.mp hsome
  exact gqp_some_ne_nil env env.streams es _ r (by rw [← hr])

/-- Only the Skip handler exits the song-activity loop. -/
theorem handleMsg_exit (env : Radio.Env) (st st' : Radio.SchedState)
    (m : Radio.ApiMessage) (h : Radio.handleMsg env st m = .exit st') :
    m = .Skip := by
  cases m with
  | Skip => rfl
  | Clear =>
    exfalso
    simp only [Radio.handleMsg] at h
    repeat split at h
    all_goals simp at h
  | Insert pos qe =>
    exfalso
    cases pos
    all_goals simp only [Radio.handleMsg] at h
    repeat' split at h
    all_goals simp at h
  | Remove pos =>
    exfalso
    cases pos
    all_goals simp only [Radio.handleMsg] at h
    repeat' split at h
    all_goals simp at h

/-! Claim theorems. -/

/-- C1: one iteration of the song-activity loop exits exactly when every
current PreBuffer is done (token set and empty ring, the allDone test) or the
received message is Skip; a Skip on a not-yet-done set exits with every
token set and the entry list and queue-prepared slot untouched. -/
theorem song_activity_exit_iff (env : Radio.Env) (st : Radio.SchedState)
    (msg : Option Radio.ApiMessage) :
    ((∃ st', Radio.songStep env st msg = .exit st') ↔
      (Radio.allDone st.prebuffers = true ∨ msg = some .Skip)) ∧
    (Radio.allDone st.prebuffers = false → msg = some .Skip →
      Radio.songStep env st msg =
        .exit { st with prebuffers := Radio.setTokens st.prebuffers } ∧
      (Radio.setTokens st.prebuffers).all (fun pb => pb.token) = true) := by
  constructor
  · constructor
    · rintro ⟨st', hex⟩
      by_cases hd : Radio.allDone st.prebuffers
      · exact Or.inl hd
      · right
        unfold Radio.songStep at hex
        rw [if_neg hd] at hex
        cases msg with
        | none => exact absurd hex (by simp)
        | some m => rw [handleMsg_exit env st st' m hex]
    · intro h
      rcases h with hd | hskip
      · exact ⟨st, by unfold Radio.songStep; rw [if_pos hd]⟩
      · subst hskip
        by_cases hd : Radio.allDone st.prebuffers
        · exact ⟨st, by unfold Radio.songStep; rw [if_pos hd]⟩
        · refine ⟨{ st with prebuffers := Radio.setTokens st.prebuffers }, ?_⟩
          unfold Radio.songStep
          rw [if_neg hd]
          rfl
  · intro hd hskip
    subst hskip
    constructor
    · unfold Radio.songStep
      rw [if_neg (by simp [hd])]
      rfl
    · simp [Radio.setTokens, List.all_map, Function.comp]

/-- C1 witness: a concrete undrained state receiving Skip exits at once with
every token set, the queue untouched. -/
theorem song_activity_exit_iff_witness :
    Radio.allDone Radio.stC1.prebuffers = false ∧
    Radio.songStep Radio.envC1 Radio.stC1 (some .Skip) =
      .exit { Radio.stC1 with prebuffers := Radio.setTokens Radio.stC1.prebuffers } :=
  ⟨rfl,
   ((song_activity_exit_iff Radio.envC1 Radio.stC1 (some .Skip)).2 rfl rfl).1⟩

/-- C2 (code-bug evidence): with an empty queue and no queue-prepared set,
as while a random track plays, handling Insert(Head, qe) panics: radio.rs
line 249 unwraps the OLD value of the queue-prepared Option, which is None,
instead of cancelling it only if present. -/
theorem insert_head_without_prepared_panics :
    Radio.songStep Radio.envC2 Radio.stC2
        (some (.Insert .Head { id := 7, path := "/b.ogg" })) =
      .panic .unwrapNone := rfl

/-- C3 (code-bug evidence): rebuilding the queue-prepared set over the queue
with the unopenable /bad.ogg at the head and the openable /good.ogg behind
it, get_queue_prebuf returns the empty queue and no set: each failure of the
head pops the LAST entry (radio.rs line 165 calls Vec pop), so /good.ogg is
silently dropped although a set could have been built from it, while the
failing head entry is retried until it is the only entry left. -/
theorem queue_prebuf_failure_pops_tail :
    Radio.get_queue_prebuf Radio.envC3
        [{ id := 1, path := "/bad.ogg" }, { id := 2, path := "/good.ogg" }]
        Radio.envC3.streams = ([], none) ∧
    (Radio.initiate_transcode Radio.envC3 "/good.ogg" Radio.envC3.streams).isSome
      = true :=
  ⟨rfl, rfl⟩

/-- C4: when the five real attempts of start_next_tc all fail, the sixth
iteration does not consult any real source: the result is exactly the
fallback transcode, and a failing fallback transcode surfaces as the fatal
fallback-unwrap panic rather than being retried. -/
theorem start_next_tc_five_attempts_then_fallback (env : KQueue.Env)
    (hf : ∀ k, k < 5 → KQueue.attemptFails env k = true) :
    KQueue.start_next_tc env = KQueue.fallbackResult env ∧
    (∀ e, KQueue.initiate_transcode env .fallback env.fallbackContainer = .error e →
      KQueue.start_next_tc env = .error .fallbackUnwrap) := by
  have e0 : KQueue.start_next_tc_loop env 0 5 = KQueue.start_next_tc_loop env 1 4 :=
    sntc_loop_step env 0 4 (hf 0 (by omega))
  have e1 : KQueue.start_next_tc_loop env 1 4 = KQueue.start_next_tc_loop env 2 3 :=
    sntc_loop_step env 1 3 (hf 1 (by omega))
  have e2 : KQueue.start_next_tc_loop env 2 3 = KQueue.start_next_tc_loop env 3 2 :=
    sntc_loop_step env 2 2 (hf 2 (by omega))
  have e3 : KQueue.start_next_tc_loop env 3 2 = KQueue.start_next_tc_loop env 4 1 :=
    sntc_loop_step env 3 1 (hf 3 (by omega))
  have e4 : KQueue.start_next_tc_loop env 4 1 = KQueue.start_next_tc_loop env 5 0 :=
    sntc_loop_step env 4 0 (hf 4 (by omega))
  have hmain : KQueue.start_next_tc env = KQueue.fallbackResult env := by
    unfold KQueue.start_next_tc
    rw [e0, e1, e2, e3, e4]
    rfl
  refine ⟨hmain, fun e he => ?_⟩
  rw [hmain]
  unfold KQueue.fallbackResult
  rw [he]

/-- C4 witness: an environment whose queue is empty and whose random fetches
all fail exhausts the five attempts and lands on the fallback. -/
theorem start_next_tc_five_attempts_then_fallback_witness :
    KQueue.attemptFails KQueue.envC4 0 = true ∧
    KQueue.attemptFails KQueue.envC4 1 = true ∧
    KQueue.attemptFails KQueue.envC4 2 = true ∧
    KQueue.attemptFails KQueue.envC4 3 = true ∧
    KQueue.attemptFails KQueue.envC4 4 = true ∧
    KQueue.start_next_tc KQueue.envC4 = KQueue.fallbackResult KQueue.envC4 ∧
    KQueue.fallbackResult KQueue.envC4 =
      .ok (.fallbackUsed 0 [{ ring := [], cancelled := false, mount := "m" }]) :=
  ⟨rfl, rfl, rfl, rfl, rfl,
   (start_next_tc_five_attempts_then_fallback KQueue.envC4 (by decide)).1,
   rfl⟩

/-- C5 counterexample: in radio.rs a prebuild CAN yield a prepared set with
fewer PreBuffers than streams: with two configured streams and a transcoder
that fails for the first one, initiate_transcode returns a set of size one
(the failing output is skipped, radio.rs lines 147-153). -/
theorem prepared_set_shrinks_counterexample :
    Radio.initiate_transcode Radio.envC5 "/x.ogg" Radio.envC5.streams =
      some [{ buffer := [], token := false }] ∧
    Radio.envC5.streams.length = 2 :=
  ⟨rfl, rfl⟩

/-- C5 amended: in the queue.rs version, whenever Queue initiate_transcode
returns a prepared set, it holds exactly one fresh PreBuffer per configured
stream, index-aligned in stream order; a per-output failure fails the whole
build.  (In the radio.rs version a failing output is skipped and the set can
shrink below the stream count, see the counterexample.) -/
theorem initiate_transcode_exact_streams (env : KQueue.Env) (s : KQueue.Source)
    (c : String) (d : Nat) (l : List KQueue.PreBuffer)
    (h : KQueue.initiate_transcode env s c = .ok (d, l)) :
    l = env.streams.map
      (fun cfg => { ring := [], cancelled := false, mount := cfg.mount }) ∧
    l.length = env.streams.length := by
  unfold KQueue.initiate_transcode at h
  by_cases h1 : env.inputOk s c = true
  · rw [if_pos h1] at h
    by_cases h2 : env.gbOk s = true
    · rw [if_pos h2] at h
      cases hb : KQueue.buildOutputs env s env.streams with
      | ok pbs =>
        rw [hb] at h
        dsimp only at h
        by_cases h3 : env.buildOk s = true
        · rw [if_pos h3] at h
          simp only [Except.ok.injEq, Prod.mk.injEq] at h
          have heq := buildOutputs_ok env s env.streams pbs hb
          refine ⟨by rw [← h.2, heq], ?_⟩
          rw [← h.2, heq, List.length_map]
        · rw [if_neg h3] at h
          exact absurd h (by simp)
      | error e =>
        rw [hb] at h
        dsimp only at h
        exact absurd h (by simp)
    · rw [if_neg h2] at h
      exact absurd h (by simp)
  · rw [if_neg h1] at h
    exact absurd h (by simp)

/-- C5 witness: a concrete successful build yields one PreBuffer for the one
configured stream. -/
theorem initiate_transcode_exact_streams_witness :
    KQueue.initiate_transcode KQueue.envC5k (.file "/x.ogg") "ogg" =
      .ok (0, [{ ring := [], cancelled := false, mount := "m" }]) ∧
    ([{ ring := [], cancelled := false, mount := "m" }] :
        List KQueue.PreBuffer).length = KQueue.envC5k.streams.length :=
  ⟨rfl,
   (initiate_transcode_exact_streams KQueue.envC5k (.file "/x.ogg") "ogg" 0 _ rfl).2⟩

/-- C6: cancelling a PreBuffer sets its token and leaves an empty ring, and
every scheduler transition that discards the queue-prepared set without
promoting it (Clear, Insert Head, Remove Head on a non-empty queue, and a
Remove Tail that empties the queue) hands back exactly the old set mapped
through cancel, hence drained; the drop of a set replaced inside queue.rs is
the spec-modelled dropCancel, which also drains. -/
theorem discard_cancels_and_drains :
    (∀ pb : Radio.PreBuffer,
      (Radio.PreBuffer.cancel pb).token = true ∧
      (Radio.PreBuffer.cancel pb).buffer = []) ∧
    (∀ (env : Radio.Env) (st : Radio.SchedState) (olds : List Radio.PreBuffer),
      st.queue_prebuf = some olds →
      Radio.handleMsg env st .Clear =
        .cont { st with entries := [], queue_prebuf := none }
          (olds.map Radio.PreBuffer.cancel)) ∧
    (∀ (env : Radio.Env) (st : Radio.SchedState) (olds : List Radio.PreBuffer)
        (qe : QueueEntry),
      st.queue_prebuf = some olds →
      Radio.handleMsg env st (.Insert .Head qe) =
        .cont { st with
                entries := (Radio.get_queue_prebuf env (qe :: st.entries) env.streams).1,
                queue_prebuf := (Radio.get_queue_prebuf env (qe :: st.entries) env.streams).2 }
          (olds.map Radio.PreBuffer.cancel)) ∧
    (∀ (env : Radio.Env) (st : Radio.SchedState) (olds : List Radio.PreBuffer),
      st.queue_prebuf = some olds → st.entries ≠ [] →
      Radio.handleMsg env st (.Remove .Head) =
        .cont { st with
                entries := (Radio.get_queue_prebuf env (st.entries.drop 1) env.streams).1,
                queue_prebuf := (Radio.get_queue_prebuf env (st.entries.drop 1) env.streams).2 }
          (olds.map Radio.PreBuffer.cancel)) ∧
    (∀ (env : Radio.Env) (st : Radio.SchedState) (olds : List Radio.PreBuffer),
      st.queue_prebuf = some olds → st.entries.length = 1 →
      Radio.handleMsg env st (.Remove .Tail) =
        .cont { st with entries := [], queue_prebuf := none }
          (olds.map Radio.PreBuffer.cancel)) ∧
    (∀ (pbs : List Radio.PreBuffer) (pb : Radio.PreBuffer),
      pb ∈ pbs.map Radio.PreBuffer.cancel → pb.token = true ∧ pb.buffer = []) ∧
    (∀ kpb : KQueue.PreBuffer,
      (KQueue.PreBuffer.dropCancel kpb).cancelled = true ∧
      (KQueue.PreBuffer.dropCancel kpb).ring = []) := by
  refine ⟨cancel_spec, ?_, ?_, ?_, ?_, ?_, ?_⟩
  · intro env st olds h
    simp [Radio.handleMsg, h]
  · intro env st olds qe h
    simp [Radio.handleMsg, h]
  · intro env st olds h hne
    have hlen : st.entries.length > 0 := List.length_pos.mpr hne
    simp [Radio.handleMsg, h, hlen]
  · intro env st olds h hlen1
    have hp : st.entries.length > 0 := by omega
    have hd : st.entries.dropLast = [] := by
      rw [← List.length_eq_zero, List.length_dropLast, hlen1]
    simp [Radio.handleMsg, h, hp, hd]
  · intro pbs pb hpb
    obtain ⟨q, _, rfl⟩ := List.mem_map.mp hpb
    exact cancel_spec q
  · intro kpb
    exact ⟨rfl, drainRead_nil kpb.ring.length kpb.ring le_rfl⟩

/-- C6 witness: a Clear on a concrete state with an undrained queue-prepared
set cancels it, and the cancelled buffer is drained. -/
theorem discard_cancels_and_drains_witness :
    Radio.stC6.queue_prebuf = some [{ buffer := [5, 6, 7], token := false }] ∧
    Radio.handleMsg Radio.envC6 Radio.stC6 .Clear =
      .cont { Radio.stC6 with entries := [], queue_prebuf := none }
        ([{ buffer := [5, 6, 7], token := false }].map Radio.PreBuffer.cancel) ∧
    (Radio.PreBuffer.cancel { buffer := [5, 6, 7], token := false }).token = true ∧
    (Radio.PreBuffer.cancel { buffer := [5, 6, 7], token := false }).buffer = [] :=
  ⟨rfl,
   discard_cancels_and_drains.2.1 Radio.envC6 Radio.stC6 _ rfl,
   discard_cancels_and_drains.1 { buffer := [5, 6, 7], token := false }⟩

/-- C7 (code-bug evidence): queue.rs line 108 computes the container hint as
the last dot-separated piece of the path, which exists for EVERY path, so the
skip branch for a missing extension is unreachable: the extensionless path
"noext" is passed to the decoder with the whole path as its container hint
instead of being skipped. -/
theorem noextension_path_not_skipped :
    KQueue.splitLastDot "noext" = some "noext" ∧
    (∀ p : String, (KQueue.splitLastDot p).isSome = true) ∧
    KQueue.start_next_tc KQueue.envC7 =
      .ok (.real "noext" 0 [{ ring := [], cancelled := false, mount := "m" }]) :=
  ⟨rfl, splitLastDot_isSome, rfl⟩

/-- C8 (code-bug evidence): a network error on the very first oracle fetch
panics at once inside get_random_song (the unwrap chain of radio.rs lines
108-111, under a TODO admitting failures are unhandled) instead of being
retried; only attempts whose fetched path fails to open or transcode are
retried, and those do run the full 100-attempt budget before the fatal
random-broken panic. -/
theorem random_oracle_failure_panics_immediately :
    Radio.get_random_prebuf Radio.envC8net = .error .oracleUnwrap ∧
    Radio.get_random_prebuf Radio.envC8tc = .error .randomBroken :=
  ⟨rfl, rfl⟩

/-- C9: operations that keep the queue head are frame-silent on the prepared
slot: Insert Tail into a non-empty queue and Remove Tail on a queue keeping
at least one element leave the queue-prepared slot exactly as it was, cancel
nothing and rebuild nothing. -/
theorem tail_ops_leave_prepared_untouched :
    (∀ (env : Radio.Env) (st : Radio.SchedState) (qe : QueueEntry),
      st.entries ≠ [] →
      Radio.handleMsg env st (.Insert .Tail qe) =
        .cont { st with entries := st.entries ++ [qe] } []) ∧
    (∀ (env : Radio.Env) (st : Radio.SchedState),
      2 ≤ st.entries.length →
      Radio.handleMsg env st (.Remove .Tail) =
        .cont { st with entries := st.entries.dropLast } []) := by
  constructor
  · intro env st qe hne
    have h0 : st.entries.length ≠ 0 := by simpa [List.length_eq_zero] using hne
    simp only [Radio.handleMsg]
    have hcond : ¬(((st.entries ++ [qe]).length == 1) = true) := by
      rw [List.length_append]
      simp only [List.length_singleton, beq_iff_eq]
      omega
    rw [if_neg hcond]
  · intro env st h2
    have hp : st.entries.length > 0 := by omega
    simp only [Radio.handleMsg]
    rw [if_pos hp]
    have hcond : ¬((st.entries.dropLast.length == 0) = true) := by
      rw [List.length_dropLast]
      simp only [beq_iff_eq]
      omega
    rw [if_neg hcond]

/-- C9 witness: on a three-entry queue, Insert Tail and Remove Tail leave the
prepared slot untouched and cancel nothing. -/
theorem tail_ops_leave_prepared_untouched_witness :
    Radio.handleMsg Radio.envC9 Radio.stC9
        (.Insert .Tail { id := 4, path := "/q4.ogg" }) =
      .cont { Radio.stC9 with
              entries := Radio.stC9.entries ++ [{ id := 4, path := "/q4.ogg" }] } [] ∧
    Radio.handleMsg Radio.envC9 Radio.stC9 (.Remove .Tail) =
      .cont { Radio.stC9 with entries := Radio.stC9.entries.dropLast } [] :=
  ⟨tail_ops_leave_prepared_untouched.1 Radio.envC9 Radio.stC9 _ (by decide),
   tail_ops_leave_prepared_untouched.2 Radio.envC9 Radio.stC9 (by decide)⟩

/-- C10: the invariant "a queue-prepared set is present only when the queue
is non-empty" holds of every slot built by get_queue_prebuf, is preserved by
every continuing and every exiting iteration of the song-activity loop and
by every successful promotion, and under it the promotion step never reaches
the panic of removing the head of an empty queue. -/
theorem queue_prebuf_invariant :
    (∀ (env : Radio.Env) (es : List QueueEntry) (pbs : List Radio.PreBuffer),
      Radio.Inv { prebuffers := pbs,
                  entries := (Radio.get_queue_prebuf env es env.streams).1,
                  queue_prebuf := (Radio.get_queue_prebuf env es env.streams).2 }) ∧
    (∀ (env : Radio.Env) (st st' : Radio.SchedState) (cs : List Radio.PreBuffer)
        (msg : Option Radio.ApiMessage),
      Radio.Inv st → Radio.songStep env st msg = .cont st' cs → Radio.Inv st') ∧
    (∀ (env : Radio.Env) (st st' : Radio.SchedState) (msg : Option Radio.ApiMessage),
      Radio.Inv st → Radio.songStep env st msg = .exit st' → Radio.Inv st') ∧
    (∀ (env : Radio.Env) (st : Radio.SchedState) (rnd : List Radio.PreBuffer),
      Radio.Inv st → Radio.promote env st rnd ≠ .error .removeEmpty) ∧
    (∀ (env : Radio.Env) (st : Radio.SchedState) (rnd : List Radio.PreBuffer)
        (out : Radio.SchedState × List Radio.PreBuffer × List Radio.PreBuffer),
      Radio.Inv st → Radio.promote env st rnd = .ok out → Radio.Inv out.1) := by
  refine ⟨fun env es pbs => Inv_of_gqp env pbs es, ?_, ?_, ?_, ?_⟩
  · intro env st st' cs msg hInv hstep
    unfold Radio.songStep at hstep
    by_cases hd : Radio.allDone st.prebuffers
    · rw [if_pos hd] at hstep
      exact absurd hstep (by simp)
    · rw [if_neg hd] at hstep
      cases msg with
      | none =>
        simp only [Radio.StepOut.cont.injEq] at hstep
        rw [← hstep.1]
        exact hInv
      | some m =>
        cases m with
        | Skip => exact absurd hstep (by simp [Radio.handleMsg])
        | Clear =>
          simp only [Radio.handleMsg] at hstep
          split at hstep
          · simp only [Radio.StepOut.cont.injEq] at hstep
            rw [← hstep.1]
            intro hsome
            simp at hsome
          · next heq =>
            simp only [Radio.StepOut.cont.injEq] at hstep
            rw [← hstep.1]
            intro hsome
            rw [heq] at hsome
            simp at hsome
        | Insert pos qe =>
          cases pos
          · simp only [Radio.handleMsg] at hstep
            split at hstep
            · exact absurd hstep (by simp)
            · simp only [Radio.StepOut.cont.injEq] at hstep
              rw [← hstep.1]
              exact Inv_of_gqp env st.prebuffers (qe :: st.entries)
          · simp only [Radio.handleMsg] at hstep
            split at hstep
            · simp only [Radio.StepOut.cont.injEq] at hstep
              rw [← hstep.1]
              exact Inv_of_gqp env st.prebuffers (st.entries ++ [qe])
            · simp only [Radio.StepOut.cont.injEq] at hstep
              rw [← hstep.1]
              intro _
              simp
        | Remove pos =>
          cases pos
          · simp only [Radio.handleMsg] at hstep
            split at hstep
            · split at hstep
              · exact absurd hstep (by simp)
              · simp only [Radio.StepOut.cont.injEq] at hstep
                rw [← hstep.1]
                exact Inv_of_gqp env st.prebuffers (st.entries.drop 1)
            · simp only [Radio.StepOut.cont.injEq] at hstep
              rw [← hstep.1]
              exact hInv
          · simp only [Radio.handleMsg] at hstep
            cases hqp : st.queue_prebuf with
            | none =>
              rw [hqp] at hstep
              dsimp only at hstep
              repeat' split at hstep
              all_goals
                (simp only [Radio.StepOut.cont.injEq] at hstep
                 rw [← hstep.1]
                 intro hsome
                 simp at hsome)
            | some qp =>
              have hne : st.entries ≠ [] := hInv (by rw [hqp]; rfl)
              have hlen : st.entries.length > 0 := List.length_pos.mpr hne
              rw [hqp, if_pos hlen] at hstep
              by_cases hz : (st.entries.dropLast.length == 0) = true
              · rw [if_pos hz] at hstep
                dsimp only at hstep
                simp only [Radio.StepOut.cont.injEq] at hstep
                rw [← hstep.1]
                intro hsome
                simp at hsome
              · rw [if_neg hz] at hstep
                simp only [Radio.StepOut.cont.injEq] at hstep
                rw [← hstep.1]
                intro _ hc
                dsimp only at hc
                exact hz (by rw [hc]; rfl)
  · intro env st st' msg hInv hstep
    unfold Radio.songStep at hstep
    by_cases hd : Radio.allDone st.prebuffers
    · rw [if_pos hd] at hstep
      simp only [Radio.StepOut.exit.injEq] at hstep
      rw [← hstep]
      exact hInv
    · rw [if_neg hd] at hstep
      cases msg with
      | none => exact absurd hstep (by simp)
      | some m =>
        have hm := handleMsg_exit env st st' m hstep
        subst hm
        simp only [Radio.handleMsg, Radio.StepOut.exit.injEq] at hstep
        rw [← hstep]
        exact hInv
  · intro env st rnd hInv
    unfold Radio.promote
    cases hqp : st.queue_prebuf with
    | some qp =>
      cases hes : st.entries with
      | nil =>
        have := hInv (by rw [hqp]; rfl)
        rw [hes] at this
        exact absurd rfl this
      | cons e rest => simp
    | none =>
      cases hrp : Radio.get_random_prebuf env with
      | ok newr => simp
      | error p =>
        intro hc
        simp only [Except.error.injEq] at hc
        subst hc
        unfold Radio.get_random_prebuf at hrp
        rcases grp_loop_error env 100 0 _ hrp with h | h <;> simp at h
  · intro env st rnd out hInv hok
    unfold Radio.promote at hok
    cases hqp : st.queue_prebuf with
    | some qp =>
      rw [hqp] at hok
      cases hes : st.entries with
      | nil =>
        have := hInv (by rw [hqp]; rfl)
        rw [hes] at this
        exact absurd rfl this
      | cons e rest =>
        rw [hes] at hok
        simp only [Except.ok.injEq] at hok
        rw [← hok]
        exact Inv_of_gqp env qp rest
    | none =>
      rw [hqp] at hok
      cases hrp : Radio.get_random_prebuf env with
      | ok newr =>
        rw [hrp] at hok
        simp only [Except.ok.injEq] at hok
        rw [← hok]
        intro hsome
        simp at hsome
      | error p =>
        rw [hrp] at hok
        exact absurd hok (by simp)

/-- C10 witness: a concrete state with a prepared set and a one-entry queue
satisfies the invariant and its promotion cannot hit the empty-remove panic. -/
theorem queue_prebuf_invariant_witness :
    Radio.Inv Radio.stC10 ∧
    Radio.promote Radio.envC10 Radio.stC10 [] ≠ .error .removeEmpty :=
  ⟨fun _ => by decide,
   queue_prebuf_invariant.2.2.2.1 Radio.envC10 Radio.stC10 []
     (fun _ => by decide)⟩

end Kawa
